import Mathlib

/-!
Verification development for the image-sieve core: the image decode/resize
pipeline (`src/misc/images.rs`), the view-refresh and commit logic
(`image_sieve/src/main_window.rs`), the background synchronizer
(`image_sieve/src/synchronize.rs`), and the image cache (whose contract is
given by the specification, §4.2).

Pixel buffers are modelled by their dimensions (the properties at stake
concern sizes and flags, never pixel contents); `f32`/`f64` arithmetic is
modelled by exact rational arithmetic, and every concrete input evaluated in
a theorem below is exactly representable, so the rational model agrees with
the floating-point computation there.
-/

namespace ImageSieve

/-- EXIF orientation of a file item (item_sort_list collaborator, spec §6). -/
inductive Orientation where
  | Landscape
  | Portrait90
  | Landscape180
  | Portrait270
deriving DecidableEq, Repr

/-- A decoded pixel buffer, modelled by its dimensions. -/
structure ImageBuffer where
  width : Nat
  height : Nat
deriving DecidableEq, Repr

/-- One file on disk (`FileItem` of the external item_sort_list crate, data
model of spec §3): path, image/other kind, size, date, EXIF orientation, the
mutable take-over decision and the ordered list of similar item indices. -/
structure FileItem where
  path : String
  is_image : Bool
  size : Nat
  date : String
  orientation : Option Orientation
  take_over : Bool
  similars : List Nat
deriving DecidableEq, Repr

/-- Default `FileItem`, used only to totalize list indexing where the Rust
code indexes with a bound it has already established. -/
def dummyItem : FileItem :=
  { path := "", is_image := false, size := 0, date := "", orientation := none,
    take_over := false, similars := [] }

instance : Inhabited FileItem := ⟨dummyItem⟩

/-- A named date range used to annotate items (item_sort_list `Event`). -/
structure Event where
  name : String
  start_date : String
  end_date : String
deriving DecidableEq, Repr

/-- The collection (`ItemList` of item_sort_list): ordered items, ordered
events, scanned root path. -/
structure ItemList where
  items : List FileItem
  events : List Event
  path : String
deriving DecidableEq, Repr

/-! ## images.rs -/

/-- `f64::round` of a nonnegative value (half away from zero), as used by the
image crate's `resize_dimensions`. -/
def rustRound (x : ℚ) : Nat := (⌊x + 1/2⌋).toNat

/-- Truncation `as u32` of a nonnegative float value. -/
def floatTrunc (x : ℚ) : Nat := (⌊x⌋).toNat

/-- The image crate's `resize_dimensions(width, height, nwidth, nheight,
fill=false)`: scale by the smaller of the two bound ratios, round, and keep
each dimension at least 1. -/
def resize_dimensions (width height nwidth nheight : Nat) : Nat × Nat :=
  let wratio : ℚ := (nwidth : ℚ) / (width : ℚ)
  let hratio : ℚ := (nheight : ℚ) / (height : ℚ)
  let r := min wratio hratio
  (max (rustRound ((width : ℚ) * r)) 1, max (rustRound ((height : ℚ) * r)) 1)

/-- The `(new_width, new_height)` pair computed by the first half of
`process_dynamic_image` (src/misc/images.rs): the two sequential `if`s of the
source write `new_width` / `new_height`, which both start at 0. -/
def target_bounds (width height max_width max_height : Nat) : Nat × Nat :=
  let r : ℚ := (width : ℚ) / (height : ℚ)
  let p0 : Nat × Nat := (0, 0)
  let p1 : Nat × Nat :=
    if width > height ∧ max_width > 0 then
      let new_width := min width max_width
      (new_width, floatTrunc ((new_width : ℚ) / r))
    else p0
  if height > width ∧ max_height > 0 then
    let new_height := min height max_height
    (floatTrunc ((new_height : ℚ) * r), new_height)
  else p1

/-- `process_dynamic_image` (src/misc/images.rs): compute target bounds from
the aspect test, resize to fit them, convert to rgba8, then rotate per the
EXIF rotation (rotations 90 and 270 swap the buffer's dimensions). -/
def process_dynamic_image (width height : Nat) (rotate : Nat)
    (max_width max_height : Nat) : ImageBuffer :=
  let p := target_bounds width height max_width max_height
  let rs := resize_dimensions width height p.1 p.2
  if rotate = 90 then ⟨rs.2, rs.1⟩
  else if rotate = 180 then ⟨rs.1, rs.2⟩
  else if rotate = 270 then ⟨rs.2, rs.1⟩
  else ⟨rs.1, rs.2⟩

/-- Rotation in degrees derived from the item's EXIF orientation
(`get_image_buffer`'s match). -/
def rotationOf (o : Option Orientation) : Nat :=
  match o with
  | some Orientation.Landscape => 0
  | some Orientation.Portrait90 => 90
  | some Orientation.Landscape180 => 180
  | some Orientation.Portrait270 => 270
  | none => 0

/-- `load_image_and_rotate`: `image::open` (modelled by the `imageOpen`
oracle: `none` is a decode error, `some` the decoded image's dimensions),
then `process_dynamic_image`. -/
def load_image_and_rotate (imageOpen : String → Option (Nat × Nat))
    (path : String) (rotate max_width max_height : Nat) :
    Option ImageBuffer :=
  (imageOpen path).map fun d =>
    process_dynamic_image d.1 d.2 rotate max_width max_height

/-- `get_image_buffer`: decode, rotate and resize an item's file; on any
decode error fall back to `ImageBuffer::new(1, 1)`. -/
def get_image_buffer (imageOpen : String → Option (Nat × Nat))
    (item : FileItem) (max_width max_height : Nat) : ImageBuffer :=
  (load_image_and_rotate imageOpen item.path (rotationOf item.orientation)
    max_width max_height).getD ⟨1, 1⟩

/-- The output dimension that descends from the input image's width: the
output width for rotations 0/180, the output height for 90/270. -/
def widthSide (b : ImageBuffer) (rotate : Nat) : Nat :=
  if rotate = 90 ∨ rotate = 270 then b.height else b.width

/-- The output dimension that descends from the input image's height. -/
def heightSide (b : ImageBuffer) (rotate : Nat) : Nat :=
  if rotate = 90 ∨ rotate = 270 then b.width else b.height

/-! ## ImageCache

Modelled from the spec: `image_cache.rs` is not among the sources here; its
contract is spec §4.2 — `load` is decode-or-return-cached (synchronous),
`prefetch` is decode-in-background-if-absent, idempotent and safe for an
item already in flight. -/

/-- Modelled from the spec: identity derived from an item sufficient to
detect staleness (spec §3, "path + modification marker"); the model's items
carry no modification marker, so the path stands for the key. -/
def CacheKey (item : FileItem) : String := item.path

/-- Modelled from the spec: state of the `ImageCache` — the keyed map of
decoded buffers, the keys whose asynchronous prefetch decode is in flight,
and a decode counter (the spec's "decode-count probe"). -/
structure CacheState where
  entries : List (String × ImageBuffer)
  inflight : List String
  decodes : Nat
deriving DecidableEq, Repr

/-- Lookup of a key in the cache's keyed map. -/
def cacheLookup (entries : List (String × ImageBuffer)) (key : String) :
    Option ImageBuffer :=
  (entries.find? fun p => decide (p.1 = key)).map fun p => p.2

/-- Modelled from the spec (§4.2): `load` — if the key is resident return the
cached buffer unchanged, otherwise decode synchronously (counted), insert,
and return the fresh buffer. -/
def ImageCache.load (decode : FileItem → ImageBuffer) (item : FileItem)
    (s : CacheState) : ImageBuffer × CacheState :=
  match cacheLookup s.entries (CacheKey item) with
  | some buf => (buf, s)
  | none =>
      let buf := decode item
      (buf, { entries := (CacheKey item, buf) :: s.entries,
              inflight := s.inflight, decodes := s.decodes + 1 })

/-- Modelled from the spec (§4.2): `prefetch` — a no-op when the key is
resident or already in flight, otherwise claim the key for an asynchronous
background decode. -/
def ImageCache.prefetch (item : FileItem) (s : CacheState) : CacheState :=
  if (cacheLookup s.entries (CacheKey item)).isSome ∨ CacheKey item ∈ s.inflight
  then s
  else { s with inflight := CacheKey item :: s.inflight }

/-! ## View model (main_window.rs) -/

/-- One on-screen row (`SortImage` DTO of the sixtyfps model): the displayed
image and the row's take-over flag. -/
structure SortImage where
  image : ImageBuffer
  take_over : Bool
deriving DecidableEq, Repr

/-- Default row, used only to totalize `row_data` where the Rust code has
already established the bound. -/
def dummySortImage : SortImage := { image := ⟨1, 1⟩, take_over := false }

/-- `HashMap::insert` on the row→item index map (`ImagesModelMap`),
modelled by an association list whose keys stay distinct. -/
def mapInsert (m : List (Nat × Nat)) (k v : Nat) : List (Nat × Nat) :=
  (k, v) :: m.filter fun p => decide (p.1 ≠ k)

/-- `HashMap` lookup on the row→item index map. -/
def mapGet (m : List (Nat × Nat)) (k : Nat) : Option Nat :=
  (m.find? fun p => decide (p.1 = k)).map fun p => p.2

/-- The `remove(0)`-until-empty loop that clears the sixtyfps row model. -/
def remove_all_rows : List SortImage → List SortImage
  | [] => []
  | _ :: rest => remove_all_rows rest

/-- `HashMap::drain` on the row→item index map. -/
def drain_map (_m : List (Nat × Nat)) : List (Nat × Nat) := []

/-- The `add_item` closure of `synchronize_images_model`, iterated over a
list of collection item indices: for each index, load the item's image
through the cache, push the row, record row→item index in the map, and
advance `model_index`. -/
def build_rows (decode : FileItem → ImageBuffer) (items : List FileItem) :
    List Nat → Nat → List SortImage × List (Nat × Nat) × CacheState →
    List SortImage × List (Nat × Nat) × CacheState
  | [], _, acc => acc
  | item_index :: rest, model_index, (rows, map, cache) =>
      let item := items.getD item_index dummyItem
      let loaded := ImageCache.load decode item cache
      build_rows decode items rest (model_index + 1)
        (rows ++ [{ image := loaded.1, take_over := item.take_over }],
         mapInsert map model_index item_index, loaded.2)

/-- Guard of the prefetch loop body: the index is not in the selected item's
similarity list and the item at the index is an image. -/
def prefetch_eligible (items : List FileItem) (similars : List Nat)
    (i : Nat) : Bool :=
  decide (i ∉ similars) && (items.getD i dummyItem).is_image

/-- Body of the "prefetch next two images" loop of
`synchronize_images_model`, with the loop's progress towards
`items.length` made structural through `fuel` (the number of indices left
to scan): while budget remains and the index is in range, prefetch each
eligible item and advance; returns the final cache and the item indices
prefetched, in call order. -/
def prefetch_go (items : List FileItem) (similars : List Nat) :
    Nat → CacheState → Nat → Nat → CacheState × List Nat
  | 0, cache, _, _ => (cache, [])
  | fuel + 1, cache, prefetch_index, prefetches =>
      if 0 < prefetches ∧ prefetch_index < items.length then
        if prefetch_eligible items similars prefetch_index then
          let cache1 :=
            ImageCache.prefetch (items.getD prefetch_index dummyItem) cache
          let rest := prefetch_go items similars fuel cache1
            (prefetch_index + 1) (prefetches - 1)
          (rest.1, prefetch_index :: rest.2)
        else prefetch_go items similars fuel cache (prefetch_index + 1) prefetches
      else (cache, [])

/-- The "prefetch next two images" loop, entered at `prefetch_index` with a
budget of `prefetches`; the loop scans at most the indices up to the end of
the collection. -/
def prefetch_loop (items : List FileItem) (similars : List Nat)
    (cache : CacheState) (prefetch_index prefetches : Nat) :
    CacheState × List Nat :=
  prefetch_go items similars (items.length - prefetch_index) cache
    prefetch_index prefetches

/-- Result of a view refresh: the rebuilt row model and row→item index map,
the cache after the loads and prefetches, the indices passed to
`ImageCache.prefetch` in call order, and the window properties set at the
end of `synchronize_images_model`. -/
structure ViewRefreshResult where
  rows : List SortImage
  modelMap : List (Nat × Nat)
  cache : CacheState
  prefetched : List Nat
  current_image : SortImage
  current_image_index : Nat
  num_images : Nat
deriving Repr

/-- `synchronize_images_model` (main_window.rs): clear the row model and the
row→item map, append the selected item then each index of its similarity
list via `add_item`, prefetch up to the next two eligible images after the
selected index, and set the window's current-image properties. (The status
line text it also formats involves no claimed property and is omitted.) -/
def synchronize_images_model (decode : FileItem → ImageBuffer)
    (selected_item_index : Nat) (item_list : ItemList)
    (prev_rows : List SortImage) (prev_map : List (Nat × Nat))
    (cache : CacheState) : ViewRefreshResult :=
  let similars := (item_list.items.getD selected_item_index dummyItem).similars
  let rows0 := remove_all_rows prev_rows
  let map0 := drain_map prev_map
  let built := build_rows decode item_list.items
    (selected_item_index :: similars) 0 (rows0, map0, cache)
  let pf := prefetch_loop item_list.items similars built.2.2
    (selected_item_index + 1) 2
  { rows := built.1
    modelMap := built.2.1
    cache := pf.1
    prefetched := pf.2
    current_image := built.1.getD 0 dummySortImage
    current_image_index := 0
    num_images := built.1.length }

/-! ## Take-over toggle and item list model (main_window.rs) -/

/-- Replace item `index`'s take-over flag in the collection
(`item_list.items[index].set_take_over(..)`); out-of-range indices (which
panic in the source) leave the list unchanged. -/
def ItemList.set_take_over_at (il : ItemList) (index : Nat) (b : Bool) :
    ItemList :=
  { il with items :=
      il.items.set index { il.items.getD index dummyItem with take_over := b } }

/-- `synchronize_item_list_model` (main_window.rs): refresh the textual list
model from the collection — push every item string when the model is empty,
otherwise `set_row_data` each index in place. `item_string` stands for the
external `get_item_string` and `has_event` for `ItemList::get_event` being
`Some`; items carrying an event get the calendar prefix. -/
def synchronize_item_list_model (item_string : FileItem → String)
    (has_event : ItemList → FileItem → Bool) (item_list : ItemList)
    (prev : List String) : List String :=
  let full := fun it =>
    if has_event item_list it then "📅" ++ item_string it else item_string it
  if prev.length = 0 then item_list.items.map full
  else (item_list.items.map full).take prev.length
    ++ prev.drop item_list.items.length

/-- The view-side state the take-over toggle touches: the shared collection,
the row model, the row→item map and the textual item list model. -/
structure ViewState where
  item_list : ItemList
  rows : List SortImage
  modelMap : List (Nat × Nat)
  item_list_model : List String
deriving Repr

/-- `on_take_over_toggle` (main_window.rs): read row `i`'s DTO, negate its
take-over flag, write that flag to the collection item the row→item map
assigns to `i`, store the DTO back into row `i`, and refresh the textual
item list model. -/
def on_take_over_toggle (item_string : FileItem → String)
    (has_event : ItemList → FileItem → Bool) (i : Nat) (v : ViewState) :
    ViewState :=
  let model_index := i
  let sort_image := v.rows.getD model_index dummySortImage
  let sort_image := { sort_image with take_over := !sort_image.take_over }
  let index := (mapGet v.modelMap model_index).getD 0
  let item_list1 := v.item_list.set_take_over_at index sort_image.take_over
  { item_list := item_list1
    rows := v.rows.set model_index sort_image
    modelMap := v.modelMap
    item_list_model := synchronize_item_list_model item_string has_event
      item_list1 v.item_list_model }

/-! ## Commit (main_window.rs) -/

/-- Commit disposition (item_sort_list `CommitMethod` collaborator; spec §4.4
"copy vs. move vs. other supported dispositions"). -/
inductive CommitMethod where
  | Copy
  | Move
  | Delete
deriving DecidableEq, Repr

/-- The spawned commit task's captured data: `item_list_copy` (the
`to_owned` snapshot of the collection taken when `commit` starts), the
target path and the commit method read from the window. -/
structure CommitTask where
  snapshot : ItemList
  target_path : String
  method : CommitMethod
deriving DecidableEq, Repr

/-- The state `commit` and the take-over toggles share: the collection
behind the mutex, and the in-flight commit task if one was spawned. -/
structure CommitWorld where
  shared : ItemList
  task : Option CommitTask
deriving DecidableEq, Repr

/-- `commit` (main_window.rs): copy the collection (`to_owned`), read the
target path and method, and spawn the task over that copy. -/
def commit_start (w : CommitWorld) (target_path : String)
    (method : CommitMethod) : CommitWorld :=
  let item_list_copy := w.shared
  { w with task := some { snapshot := item_list_copy,
                          target_path := target_path, method := method } }

/-- A take-over edit applied to the shared collection (what the toggle
callback does while a commit may be in flight). -/
def world_set_take_over (w : CommitWorld) (index : Nat) (b : Bool) :
    CommitWorld :=
  { w with shared := w.shared.set_take_over_at index b }

/-- A sequence of take-over edits applied to the shared collection. -/
def apply_take_over_edits (edits : List (Nat × Bool)) (w : CommitWorld) :
    CommitWorld :=
  edits.foldl (fun w e => world_set_take_over w e.1 e.2) w

/-! ## UI state, progress callback and scan publication -/

/-- The window properties the modelled callbacks write (`ImageSieve`
properties; the Presentation Bridge of spec §6). `selected` records the
index passed to `invoke_item_selected`. -/
structure UiState where
  images_list_model : List String
  num_list_items : Nat
  selected : Option Nat
  current_image : SortImage
  current_image_index : Nat
  num_images : Nat
  current_image_text : String
  loading : Bool
  commit_running : Bool
  commit_message : String
deriving Repr

/-- `get_empty_image` (src/misc/images.rs): a 1×1 shared pixel buffer. -/
def get_empty_image : ImageBuffer := ⟨1, 1⟩

/-- The commit progress callback's event-loop body (main_window.rs,
`commit`): when the progress string is the literal "Done" clear
`commit_running`; always display the string as the commit message. -/
def commit_progress_callback (progress : String) (u : UiState) : UiState :=
  let u1 := if progress = "Done" then { u with commit_running := false } else u
  { u1 with commit_message := progress }

/-- The publication closure `synchronize_run` hands to the event loop
(synchronize.rs): refresh the textual item list model, set
`num_list_items`; when the collection is non-empty invoke selection of item
0, otherwise show the empty placeholder image, zero images and the
"No images found" text; finally clear `loading`. -/
def publish_to_ui (item_string : FileItem → String)
    (has_event : ItemList → FileItem → Bool) (item_list : ItemList)
    (u : UiState) : UiState :=
  let u1 := { u with images_list_model := (synchronize_item_list_model
                item_string has_event item_list u.images_list_model) }
  let num_items := item_list.items.length
  let u2 := { u1 with num_list_items := num_items }
  let u3 :=
    if 0 < num_items then { u2 with selected := some 0 }
    else { u2 with
            current_image := { image := get_empty_image, take_over := true }
            current_image_index := 0
            num_images := 0
            current_image_text := "No images found" }
  { u3 with loading := false }

/-! ## Synchronizer (synchronize.rs) -/

/-- One iteration of the `for path in receiver` loop body of
`synchronize_run`, up to publication: load a persisted collection for the
path (replacing the in-memory contents when found), rescan the filesystem
(`ItemList::synchronize`, the `fs_synchronize` oracle), then group
(`ItemList::find_similar` with window size 5, the `find_similar` oracle). -/
def scan_step (persisted : String → Option ItemList)
    (fs_synchronize : ItemList → String → ItemList)
    (find_similar : ItemList → Nat → ItemList)
    (il : ItemList) (path : String) : ItemList :=
  let il1 :=
    match persisted path with
    | some loaded => loaded
    | none => il
  find_similar (fs_synchronize il1 path) 5

/-- Observable steps of the synchronizer worker, tagged with the submission
index of the scan request they belong to. `publish` is the step the
interactive thread observes. -/
inductive ScanEvent where
  | loadPersisted (req : Nat)
  | rescan (req : Nat)
  | grouping (req : Nat)
  | publish (req : Nat)
deriving DecidableEq, Repr

/-- The four steps of one scan, in the order `synchronize_run` performs
them. -/
def evBlock (req : Nat) : List ScanEvent :=
  [ScanEvent.loadPersisted req, ScanEvent.rescan req,
   ScanEvent.grouping req, ScanEvent.publish req]

/-- The `for path in receiver` loop of `synchronize_run`, with requests
numbered from `req`: each dequeued path runs `scan_step` and emits its four
events before the next request is touched; returns the event trace and the
final collection. -/
def synchronize_run_aux (persisted : String → Option ItemList)
    (fs_synchronize : ItemList → String → ItemList)
    (find_similar : ItemList → Nat → ItemList) :
    Nat → List String → ItemList → List ScanEvent × ItemList
  | _, [], il => ([], il)
  | req, path :: rest, il =>
      let il1 := scan_step persisted fs_synchronize find_similar il path
      let tail := synchronize_run_aux persisted fs_synchronize find_similar
        (req + 1) rest il1
      (evBlock req ++ tail.1, tail.2)

/-- `synchronize_run` (synchronize.rs) over a whole submission sequence:
requests are dequeued from the channel in submission order, numbered from
0. -/
def synchronize_run (persisted : String → Option ItemList)
    (fs_synchronize : ItemList → String → ItemList)
    (find_similar : ItemList → Nat → ItemList)
    (requests : List String) (il : ItemList) : List ScanEvent × ItemList :=
  synchronize_run_aux persisted fs_synchronize find_similar 0 requests il

end ImageSieve

/-! # Theorems -/

namespace ImageSieve

/-! ## Helper lemmas: resize bounds (images.rs) -/

theorem rustRound_le_of_le {x : ℚ} {n : Nat} (hx : x ≤ (n : ℚ)) :
    rustRound x ≤ n := by
  unfold rustRound
  rw [Int.toNat_le]
  have h1 : ⌊x + 1/2⌋ ≤ ⌊(n : ℚ) + 1/2⌋ := Int.floor_le_floor (by linarith)
  have h2 : ⌊(n : ℚ) + 1/2⌋ = (n : ℤ) := by
    rw [Int.floor_eq_iff]
    constructor
    · push_cast
      linarith
    · push_cast
      linarith
  omega

theorem resize_dimensions_fst_le (w h nw nh : Nat) (hw : 0 < w)
    (hnw : 1 ≤ nw) : (resize_dimensions w h nw nh).1 ≤ nw := by
  have hwQ : (0:ℚ) < (w:ℚ) := by exact_mod_cast hw
  have hx : (w:ℚ) * min ((nw:ℚ)/(w:ℚ)) ((nh:ℚ)/(h:ℚ)) ≤ (nw:ℚ) := by
    calc (w:ℚ) * min ((nw:ℚ)/(w:ℚ)) ((nh:ℚ)/(h:ℚ))
        ≤ (w:ℚ) * ((nw:ℚ)/(w:ℚ)) :=
          mul_le_mul_of_nonneg_left (min_le_left _ _) (le_of_lt hwQ)
      _ = (nw:ℚ) := by field_simp
  have hr := rustRound_le_of_le hx
  unfold resize_dimensions
  dsimp only
  omega

theorem resize_dimensions_snd_le (w h nw nh : Nat) (hh : 0 < h)
    (hnh : 1 ≤ nh) : (resize_dimensions w h nw nh).2 ≤ nh := by
  have hhQ : (0:ℚ) < (h:ℚ) := by exact_mod_cast hh
  have hx : (h:ℚ) * min ((nw:ℚ)/(w:ℚ)) ((nh:ℚ)/(h:ℚ)) ≤ (nh:ℚ) := by
    calc (h:ℚ) * min ((nw:ℚ)/(w:ℚ)) ((nh:ℚ)/(h:ℚ))
        ≤ (h:ℚ) * ((nh:ℚ)/(h:ℚ)) :=
          mul_le_mul_of_nonneg_left (min_le_right _ _) (le_of_lt hhQ)
      _ = (nh:ℚ) := by field_simp
  have hr := rustRound_le_of_le hx
  unfold resize_dimensions
  dsimp only
  omega

theorem widthSide_process (w h rot mw mh : Nat) :
    widthSide (process_dynamic_image w h rot mw mh) rot =
      (resize_dimensions w h (target_bounds w h mw mh).1
        (target_bounds w h mw mh).2).1 := by
  simp only [process_dynamic_image, widthSide]
  split_ifs <;> simp_all

theorem heightSide_process (w h rot mw mh : Nat) :
    heightSide (process_dynamic_image w h rot mw mh) rot =
      (resize_dimensions w h (target_bounds w h mw mh).1
        (target_bounds w h mw mh).2).2 := by
  simp only [process_dynamic_image, heightSide]
  split_ifs <;> simp_all

theorem target_bounds_landscape (w h mw mh : Nat) (hwh : h < w)
    (hmw : 0 < mw) :
    target_bounds w h mw mh =
      (min w mw, floatTrunc (((min w mw : ℕ) : ℚ) / ((w:ℚ)/(h:ℚ)))) := by
  simp only [target_bounds]
  rw [if_neg (by omega : ¬(h > w ∧ mh > 0)), if_pos ⟨hwh, hmw⟩]

theorem target_bounds_portrait (w h mw mh : Nat) (hwh : w < h)
    (hmh : 0 < mh) :
    target_bounds w h mw mh =
      (floatTrunc (((min h mh : ℕ) : ℚ) * ((w:ℚ)/(h:ℚ))), min h mh) := by
  simp only [target_bounds]
  rw [if_pos ⟨hwh, hmh⟩]

/-! ## C4 -/

/-- C4: for every item whose file cannot be decoded (the `image::open`
oracle yields no image), `get_image_buffer` returns the 1×1 placeholder
buffer instead of propagating an error; by its very type the operation
cannot fail on any input. -/
theorem c4_decode_failure_placeholder (imageOpen : String → Option (Nat × Nat))
    (item : FileItem) (mw mh : Nat) (hfail : imageOpen item.path = none) :
    get_image_buffer imageOpen item mw mh = ⟨1, 1⟩ := by
  simp [get_image_buffer, load_image_and_rotate, hfail]

theorem c4_decode_failure_placeholder_witness :
    get_image_buffer (fun _ => none) dummyItem 100 100 = ⟨1, 1⟩ :=
  c4_decode_failure_placeholder (fun _ => none) dummyItem 100 100 rfl

/-! ## C5 -/

/-- C5 fails as stated: a successfully decoded 100×50 image processed with
positive bounds max_width = 100, max_height = 10 (and no EXIF rotation)
yields a 100×50 buffer, whose height exceeds max_height. All floating-point
values arising at this input are exactly representable, so the rational
model coincides with the `f32` computation. -/
theorem c5_counterexample :
    get_image_buffer (fun _ => some (100, 50)) dummyItem 100 10 = ⟨100, 50⟩
    ∧ ¬((100 : Nat) ≤ 100 ∧ (50 : Nat) ≤ 10) := by
  constructor
  · show (process_dynamic_image 100 50 (rotationOf none) 100 10) = _
    norm_num [process_dynamic_image, target_bounds, resize_dimensions,
      rustRound, floatTrunc, rotationOf]
    simp
    norm_num [Int.floor_eq_zero_iff]
    exact ⟨rfl, rfl⟩
  · intro hc
    omega

/-- C5 amended: only the dimension descending from the image's longer side
is bounded. For a landscape image (width > height) with max_width > 0, the
output dimension that descends from the input width (the output width for
rotations 0/180, the output height for 90/270) is at most max_width;
symmetrically for a portrait image (height > width) with max_height > 0,
the dimension descending from the input height is at most max_height. The
other dimension (and both dimensions of a square image) carry no such
bound. -/
theorem c5_resize_bounds_amended (w h rot mw mh : Nat) :
    (h < w → 1 ≤ mw →
      widthSide (process_dynamic_image w h rot mw mh) rot ≤ mw)
    ∧ (w < h → 1 ≤ mh →
      heightSide (process_dynamic_image w h rot mw mh) rot ≤ mh) := by
  constructor
  · intro hwh hmw
    rw [widthSide_process, target_bounds_landscape w h mw mh hwh hmw]
    dsimp only
    have hfst := resize_dimensions_fst_le w h (min w mw)
      (floatTrunc (((min w mw : ℕ) : ℚ) / ((w:ℚ)/(h:ℚ)))) (by omega) (by omega)
    omega
  · intro hwh hmh
    rw [heightSide_process, target_bounds_portrait w h mw mh hwh hmh]
    dsimp only
    have hsnd := resize_dimensions_snd_le w h
      (floatTrunc (((min h mh : ℕ) : ℚ) * ((w:ℚ)/(h:ℚ)))) (min h mh) (by omega) (by omega)
    omega

theorem c5_resize_bounds_amended_witness :
    widthSide (process_dynamic_image 100 50 0 100 10) 0 ≤ 100 :=
  (c5_resize_bounds_amended 100 50 0 100 10).1 (by decide) (by decide)

/-! ## Helper lemmas: commit world -/

theorem apply_take_over_edits_task (edits : List (Nat × Bool)) :
    ∀ w : CommitWorld, (apply_take_over_edits edits w).task = w.task := by
  induction edits with
  | nil => intro w; rfl
  | cons e rest ih =>
      intro w
      simpa [apply_take_over_edits, world_set_take_over] using
        ih (world_set_take_over w e.1 e.2)

/-! ## C1 -/

/-- C1: from a state where the item's key is not resident, `load` performs
one decode and a second immediate `load` returns the already-cached entry
with the state unchanged; and `prefetch` on any state where the key is
resident or already in flight is the identity (no decode, no new cache
entry). (Cache modelled from spec §4.2; `image_cache.rs` is not among the
sources.) -/
theorem c1_cache_single_decode_and_prefetch_idempotence
    (decode : FileItem → ImageBuffer) (item : FileItem) (s : CacheState)
    (habsent : cacheLookup s.entries (CacheKey item) = none) :
    (ImageCache.load decode item s).2.decodes = s.decodes + 1
    ∧ ImageCache.load decode item (ImageCache.load decode item s).2
        = ((ImageCache.load decode item s).1, (ImageCache.load decode item s).2)
    ∧ ∀ t : CacheState,
        (cacheLookup t.entries (CacheKey item)).isSome = true
          ∨ CacheKey item ∈ t.inflight →
        ImageCache.prefetch item t = t := by
  refine ⟨?_, ?_, ?_⟩
  · simp [ImageCache.load, habsent]
  · unfold ImageCache.load
    rw [habsent]
    simp [cacheLookup]
  · intro t ht
    simp [ImageCache.prefetch, ht]

theorem c1_cache_single_decode_and_prefetch_idempotence_witness :
    (ImageCache.load (fun _ => ⟨2, 2⟩) dummyItem ⟨[], [], 0⟩).2.decodes = 0 + 1
    ∧ ImageCache.prefetch dummyItem ⟨[("", ⟨2, 2⟩)], [], 1⟩
        = ⟨[("", ⟨2, 2⟩)], [], 1⟩ :=
  ⟨(c1_cache_single_decode_and_prefetch_idempotence
      (fun _ => ⟨2, 2⟩) dummyItem ⟨[], [], 0⟩ rfl).1,
   (c1_cache_single_decode_and_prefetch_idempotence
      (fun _ => ⟨2, 2⟩) dummyItem ⟨[], [], 0⟩ rfl).2.2
      ⟨[("", ⟨2, 2⟩)], [], 1⟩ (Or.inl (by decide))⟩

/-! ## C7 -/

/-- C7: after a scan publication, a non-empty collection makes item 0 the
selected item; an empty collection sets the status text to exactly
"No images found", `num_images` to 0, and the current image to the empty
1×1 placeholder. -/
theorem c7_publish_selects_first_or_empty_state
    (item_string : FileItem → String)
    (has_event : ItemList → FileItem → Bool) (item_list : ItemList)
    (u : UiState) :
    (0 < item_list.items.length →
      (publish_to_ui item_string has_event item_list u).selected = some 0)
    ∧ (item_list.items.length = 0 →
      (publish_to_ui item_string has_event item_list u).current_image_text
          = "No images found"
      ∧ (publish_to_ui item_string has_event item_list u).num_images = 0
      ∧ (publish_to_ui item_string has_event item_list u).current_image
          = { image := get_empty_image, take_over := true }) := by
  constructor
  · intro h
    simp [publish_to_ui, h]
  · intro h
    simp [publish_to_ui, h]

theorem c7_publish_selects_first_or_empty_state_witness :
    (publish_to_ui (fun _ => "") (fun _ _ => false) ⟨[dummyItem], [], ""⟩
      ⟨[], 0, none, dummySortImage, 0, 0, "", false, false, ""⟩).selected
        = some 0
    ∧ (publish_to_ui (fun _ => "") (fun _ _ => false) ⟨[], [], ""⟩
      ⟨[], 0, none, dummySortImage, 0, 0, "", false, false, ""⟩).current_image_text
        = "No images found" :=
  ⟨(c7_publish_selects_first_or_empty_state (fun _ => "") (fun _ _ => false)
      ⟨[dummyItem], [], ""⟩
      ⟨[], 0, none, dummySortImage, 0, 0, "", false, false, ""⟩).1 (by decide),
   ((c7_publish_selects_first_or_empty_state (fun _ => "") (fun _ _ => false)
      ⟨[], [], ""⟩
      ⟨[], 0, none, dummySortImage, 0, 0, "", false, false, ""⟩).2 rfl).1⟩

/-! ## C8 -/

/-- C8: the spawned commit task holds the copy of the collection taken at
the moment `commit` started; any sequence of take-over edits applied to the
shared collection afterwards leaves the task's snapshot (and hence the set
of files the in-flight commit operates on, a function of that snapshot)
unchanged. -/
theorem c8_commit_snapshot_unaffected_by_later_edits
    (w : CommitWorld) (target : String) (method : CommitMethod)
    (edits : List (Nat × Bool)) :
    (apply_take_over_edits edits (commit_start w target method)).task
      = some { snapshot := w.shared, target_path := target,
               method := method } := by
  rw [apply_take_over_edits_task]
  rfl

/-! ## C9 -/

/-- C9: the commit progress callback always displays the delivered string as
the commit message, and clears the commit-running flag exactly when the
string is the literal sentinel "Done" — any other string leaves the flag as
it was. -/
theorem c9_commit_progress_callback_contract (progress : String)
    (u : UiState) :
    (commit_progress_callback progress u).commit_message = progress
    ∧ (commit_progress_callback progress u).commit_running
        = (if progress = "Done" then false else u.commit_running) := by
  by_cases h : progress = "Done" <;> simp [commit_progress_callback, h]

/-! ## C10 -/

/-- C10: for a row index present in the row→item map (with the row and the
mapped item in range, and the row's DTO flag in sync with the item's flag as
the view refresh establishes), the toggle flips the DTO's take-over flag and
the mapped collection item's take-over flag, leaves the two equal, and
changes no other collection item. -/
theorem c10_take_over_toggle_flips_exactly_mapped_item
    (item_string : FileItem → String)
    (has_event : ItemList → FileItem → Bool) (i index : Nat) (v : ViewState)
    (hmap : mapGet v.modelMap i = some index)
    (hidx : index < v.item_list.items.length)
    (hrow : i < v.rows.length)
    (hsync : (v.rows.getD i dummySortImage).take_over
      = (v.item_list.items.getD index dummyItem).take_over) :
    ((on_take_over_toggle item_string has_event i v).rows.getD i
        dummySortImage).take_over
      = !(v.rows.getD i dummySortImage).take_over
    ∧ ((on_take_over_toggle item_string has_event i v).item_list.items.getD
        index dummyItem).take_over
      = !(v.item_list.items.getD index dummyItem).take_over
    ∧ ((on_take_over_toggle item_string has_event i v).rows.getD i
        dummySortImage).take_over
      = ((on_take_over_toggle item_string has_event i v).item_list.items.getD
        index dummyItem).take_over
    ∧ ∀ j, j ≠ index →
        (on_take_over_toggle item_string has_event i v).item_list.items[j]?
          = v.item_list.items[j]? := by
  simp only [on_take_over_toggle, ItemList.set_take_over_at, hmap,
    Option.getD_some]
  have hrowset : ((v.rows.set i
      { v.rows.getD i dummySortImage with
        take_over := !(v.rows.getD i dummySortImage).take_over }).getD i
      dummySortImage)
      = { v.rows.getD i dummySortImage with
          take_over := !(v.rows.getD i dummySortImage).take_over } := by
    rw [List.getD_eq_getElem?_getD, List.getElem?_set_self hrow]
    rfl
  have hitemset : ((v.item_list.items.set index
      { v.item_list.items.getD index dummyItem with
        take_over := !(v.rows.getD i dummySortImage).take_over }).getD index
      dummyItem)
      = { v.item_list.items.getD index dummyItem with
          take_over := !(v.rows.getD i dummySortImage).take_over } := by
    rw [List.getD_eq_getElem?_getD, List.getElem?_set_self hidx]
    rfl
  refine ⟨?_, ?_, ?_, ?_⟩
  · simpa using congrArg SortImage.take_over hrowset
  · rw [hsync] at hitemset ⊢
    simpa using congrArg FileItem.take_over hitemset
  · simp only [List.getD_eq_getElem?_getD, List.getElem?_set_self hrow,
      List.getElem?_set_self hidx, Option.getD_some]
  · intro j hj
    exact List.getElem?_set_ne (by omega)

theorem c10_take_over_toggle_flips_exactly_mapped_item_witness :
    ((on_take_over_toggle (fun _ => "") (fun _ _ => false) 0
        ⟨⟨[dummyItem], [], ""⟩, [dummySortImage], [(0, 0)], []⟩).item_list.items.getD
        0 dummyItem).take_over
      = !(((⟨⟨[dummyItem], [], ""⟩, [dummySortImage], [(0, 0)], []⟩ :
          ViewState)).item_list.items.getD 0 dummyItem).take_over :=
  (c10_take_over_toggle_flips_exactly_mapped_item (fun _ => "")
    (fun _ _ => false) 0 0
    ⟨⟨[dummyItem], [], ""⟩, [dummySortImage], [(0, 0)], []⟩
    (by decide) (by decide) (by decide) rfl).2.1

/-! ## Helper lemmas: synchronizer trace -/

theorem synchronize_run_aux_trace (persisted : String → Option ItemList)
    (fs_synchronize : ItemList → String → ItemList)
    (find_similar : ItemList → Nat → ItemList) :
    ∀ (reqs : List String) (req : Nat) (il : ItemList),
      (synchronize_run_aux persisted fs_synchronize find_similar req reqs il).1
        = (List.range' req reqs.length).flatMap evBlock := by
  intro reqs
  induction reqs with
  | nil => intro req il; simp [synchronize_run_aux]
  | cons a rest ih =>
      intro req il
      simp only [synchronize_run_aux, List.length_cons, List.range'_succ,
        List.flatMap_cons]
      rw [ih]

theorem synchronize_run_aux_final (persisted : String → Option ItemList)
    (fs_synchronize : ItemList → String → ItemList)
    (find_similar : ItemList → Nat → ItemList) :
    ∀ (reqs : List String) (req : Nat) (il : ItemList),
      (synchronize_run_aux persisted fs_synchronize find_similar req reqs il).2
        = reqs.foldl (scan_step persisted fs_synchronize find_similar) il := by
  intro reqs
  induction reqs with
  | nil => intro req il; rfl
  | cons a rest ih =>
      intro req il
      simp only [synchronize_run_aux, List.foldl_cons]
      rw [ih]

theorem bind_evBlock_get (s n i : Nat) (hi : i < n) :
    ((List.range' s n).flatMap evBlock)[4*i]? = some (ScanEvent.loadPersisted (s+i))
    ∧ ((List.range' s n).flatMap evBlock)[4*i+1]? = some (ScanEvent.rescan (s+i))
    ∧ ((List.range' s n).flatMap evBlock)[4*i+2]? = some (ScanEvent.grouping (s+i))
    ∧ ((List.range' s n).flatMap evBlock)[4*i+3]? = some (ScanEvent.publish (s+i)) := by
  induction n generalizing s i with
  | zero => omega
  | succ n ih =>
      rw [List.range'_succ, List.flatMap_cons]
      cases i with
      | zero => simp [evBlock]
      | succ i' =>
          have hlen : (evBlock s).length = 4 := rfl
          have h4 : ∀ o : Nat, (evBlock s ++ (List.range' (s+1) n).flatMap evBlock)[4*(i'+1)+o]?
              = ((List.range' (s+1) n).flatMap evBlock)[4*i'+o]? := by
            intro o
            rw [List.getElem?_append_right (by omega)]
            congr 1
            omega
          have := ih (s+1) i' (by omega)
          have hs : s + 1 + i' = s + (i'+1) := by omega
          rw [hs] at this
          refine ⟨?_, ?_, ?_, ?_⟩
          · rw [show 4*(i'+1) = 4*(i'+1)+0 by omega, h4 0,
              show 4*i'+0 = 4*i' by omega]
            exact this.1
          · rw [h4 1]
            exact this.2.1
          · rw [h4 2]
            exact this.2.2.1
          · rw [h4 3]
            exact this.2.2.2

theorem bind_evBlock_publish_pos (s n k p : Nat)
    (hk : ((List.range' s n).flatMap evBlock)[k]? = some (ScanEvent.publish p)) :
    s ≤ p ∧ p < s + n ∧ k = 4*(p-s)+3 := by
  induction n generalizing s k with
  | zero => simp [List.range'] at hk
  | succ n ih =>
      rw [List.range'_succ, List.flatMap_cons] at hk
      rcases k with _ | _ | _ | _ | k4
      · simp [evBlock] at hk
      · simp [evBlock] at hk
      · simp [evBlock] at hk
      · simp [evBlock] at hk
        omega
      · rw [List.getElem?_append_right (by simp [evBlock])] at hk
        have hlen : (evBlock s).length = 4 := rfl
        rw [hlen] at hk
        have := ih (s+1) (k4+4-4) (by simpa using hk)
        omega

end ImageSieve
namespace ImageSieve

/-! ## C6 -/

/-- C6: the worker loop processes scan requests one at a time in submission
order (the final collection is the in-order fold of `scan_step`), each
request's four steps appear in the trace in the order persisted-load,
rescan, grouping, publish at positions 4i..4i+3, and publish events occur in
strictly increasing trace positions exactly in request order — the
interactive thread never observes an earlier request's publish after a later
one's. -/
theorem c6_scan_requests_serialized (persisted : String → Option ItemList)
    (fs_synchronize : ItemList → String → ItemList)
    (find_similar : ItemList → Nat → ItemList)
    (reqs : List String) (il : ItemList) :
    ((synchronize_run persisted fs_synchronize find_similar reqs il).2
      = reqs.foldl (scan_step persisted fs_synchronize find_similar) il)
    ∧ (∀ i, i < reqs.length →
        (synchronize_run persisted fs_synchronize find_similar reqs il).1[4*i]?
          = some (ScanEvent.loadPersisted i)
        ∧ (synchronize_run persisted fs_synchronize find_similar reqs il).1[4*i+1]?
          = some (ScanEvent.rescan i)
        ∧ (synchronize_run persisted fs_synchronize find_similar reqs il).1[4*i+2]?
          = some (ScanEvent.grouping i)
        ∧ (synchronize_run persisted fs_synchronize find_similar reqs il).1[4*i+3]?
          = some (ScanEvent.publish i))
    ∧ (∀ i j ki kj : Nat,
        (synchronize_run persisted fs_synchronize find_similar reqs il).1[ki]?
          = some (ScanEvent.publish i) →
        (synchronize_run persisted fs_synchronize find_similar reqs il).1[kj]?
          = some (ScanEvent.publish j) →
        i < j → ki < kj) := by
  have htr : (synchronize_run persisted fs_synchronize find_similar reqs il).1
      = (List.range' 0 reqs.length).flatMap evBlock :=
    synchronize_run_aux_trace persisted fs_synchronize find_similar reqs 0 il
  refine ⟨synchronize_run_aux_final persisted fs_synchronize find_similar reqs 0 il,
    ?_, ?_⟩
  · intro i hi
    rw [htr]
    simpa using bind_evBlock_get 0 reqs.length i hi
  · intro i j ki kj h1 h2 hij
    rw [htr] at h1 h2
    have u1 := bind_evBlock_publish_pos 0 reqs.length ki i h1
    have u2 := bind_evBlock_publish_pos 0 reqs.length kj j h2
    omega

theorem c6_scan_requests_serialized_witness :
    (synchronize_run (fun _ => none) (fun il _ => il) (fun il _ => il)
      ["a", "b"] ⟨[], [], ""⟩).1[3]? = some (ScanEvent.publish 0)
    ∧ (synchronize_run (fun _ => none) (fun il _ => il) (fun il _ => il)
      ["a", "b"] ⟨[], [], ""⟩).1[7]? = some (ScanEvent.publish 1) :=
  ⟨by simpa using ((c6_scan_requests_serialized (fun _ => none) (fun il _ => il) (fun il _ => il)
      ["a", "b"] ⟨[], [], ""⟩).2.1 0 (by decide)).2.2.2,
   by simpa using ((c6_scan_requests_serialized (fun _ => none) (fun il _ => il) (fun il _ => il)
      ["a", "b"] ⟨[], [], ""⟩).2.1 1 (by decide)).2.2.2⟩

/-! ## Helper lemmas: view refresh rows and map -/

theorem remove_all_rows_eq_nil : ∀ l : List SortImage, remove_all_rows l = []
  | [] => rfl
  | _ :: rest => remove_all_rows_eq_nil rest

theorem build_rows_fst_take_over (decode : FileItem → ImageBuffer)
    (items : List FileItem) :
    ∀ (idxs : List Nat) (mi : Nat) (rows : List SortImage)
      (map : List (Nat × Nat)) (cache : CacheState),
      ((build_rows decode items idxs mi (rows, map, cache)).1).map
          (fun r => r.take_over)
        = rows.map (fun r => r.take_over)
          ++ idxs.map (fun i => (items.getD i dummyItem).take_over) := by
  intro idxs
  induction idxs with
  | nil => intro mi rows map cache; simp [build_rows]
  | cons i rest ih =>
      intro mi rows map cache
      simp only [build_rows]
      rw [ih]
      simp

theorem build_rows_fst_length (decode : FileItem → ImageBuffer)
    (items : List FileItem) :
    ∀ (idxs : List Nat) (mi : Nat) (rows : List SortImage)
      (map : List (Nat × Nat)) (cache : CacheState),
      ((build_rows decode items idxs mi (rows, map, cache)).1).length
        = rows.length + idxs.length := by
  intro idxs
  induction idxs with
  | nil => intro mi rows map cache; simp [build_rows]
  | cons i rest ih =>
      intro mi rows map cache
      simp only [build_rows]
      rw [ih]
      simp
      omega

theorem build_rows_map_eq (decode : FileItem → ImageBuffer)
    (items : List FileItem) :
    ∀ (idxs : List Nat) (mi : Nat) (rows : List SortImage)
      (map : List (Nat × Nat)) (cache : CacheState),
      (∀ q ∈ map, q.1 < mi) →
      (build_rows decode items idxs mi (rows, map, cache)).2.1
        = (idxs.enumFrom mi).reverse ++ map := by
  intro idxs
  induction idxs with
  | nil => intro mi rows map cache hm; simp [build_rows]
  | cons i rest ih =>
      intro mi rows map cache hm
      simp only [build_rows]
      have hins : mapInsert map mi i = (mi, i) :: map := by
        unfold mapInsert
        congr 1
        rw [List.filter_eq_self]
        intro q hq
        have := hm q hq
        simp
        omega
      rw [hins, ih (mi+1) _ _ _ ?hb]
      · rw [List.enumFrom_cons]
        simp
      · intro q hq
        rcases List.mem_cons.mp hq with hq1 | hq1
        · simp [hq1]
        · have := hm q hq1
          omega

theorem enumFrom_fst_ge :
    ∀ (idxs : List Nat) (off : Nat) (q : Nat × Nat),
      q ∈ idxs.enumFrom off → off ≤ q.1 := by
  intro idxs
  induction idxs with
  | nil => intro off q hq; simp at hq
  | cons i rest ih =>
      intro off q hq
      rw [List.enumFrom_cons] at hq
      rcases List.mem_cons.mp hq with hq1 | hq1
      · simp [hq1]
      · have := ih (off+1) q hq1
        omega

theorem mapGet_enumFrom_reverse :
    ∀ (idxs : List Nat) (off k : Nat), k < idxs.length →
      mapGet ((idxs.enumFrom off).reverse) (off + k) = some (idxs.getD k 0) := by
  intro idxs
  induction idxs with
  | nil => intro off k hk; simp at hk
  | cons i rest ih =>
      intro off k hk
      rw [List.enumFrom_cons]
      unfold mapGet
      rw [List.reverse_cons, List.find?_append]
      cases k with
      | zero =>
          have hnone : ((rest.enumFrom (off+1)).reverse.find?
              fun p => decide (p.1 = off + 0)) = none := by
            rw [List.find?_eq_none]
            intro q hq
            rw [List.mem_reverse] at hq
            have := enumFrom_fst_ge rest (off+1) q hq
            simp
            omega
          rw [hnone]
          simp
      | succ k' =>
          have hk' : k' < rest.length := by simpa using hk
          have hih := ih (off+1) k' hk'
          unfold mapGet at hih
          have hoff : off + (k'+1) = off + 1 + k' := by omega
          rw [hoff]
          rcases hfind : ((rest.enumFrom (off+1)).reverse.find?
              fun p => decide (p.1 = off + 1 + k')) with _ | q
          · rw [hfind] at hih
            simp at hih
          · rw [hfind] at hih
            rw [hfind]
            simp at hih
            simp [hih]

/-! ## C2 -/

/-- C2: for every valid selected index, the view refresh clears the previous
rows and map (the result is independent of them), produces rows that are the
selected item followed by its similarity list in stored order (witnessed by
the rows' take-over flags and the map), maps each row position to that row's
collection item index, and the map size equals the row count. -/
theorem c2_view_refresh_rows_and_map (decode : FileItem → ImageBuffer) (selected : Nat)
    (item_list : ItemList) (prev_rows : List SortImage)
    (prev_map : List (Nat × Nat)) (cache : CacheState)
    (hsel : selected < item_list.items.length) :
    (synchronize_images_model decode selected item_list prev_rows prev_map cache
      = synchronize_images_model decode selected item_list [] [] cache)
    ∧ ((synchronize_images_model decode selected item_list prev_rows prev_map
          cache).rows.map (fun r => r.take_over)
      = (selected :: (item_list.items.getD selected dummyItem).similars).map
          (fun i => (item_list.items.getD i dummyItem).take_over))
    ∧ ((synchronize_images_model decode selected item_list prev_rows prev_map
          cache).rows.length
      = (selected :: (item_list.items.getD selected dummyItem).similars).length)
    ∧ (∀ k, k < (selected ::
          (item_list.items.getD selected dummyItem).similars).length →
        mapGet (synchronize_images_model decode selected item_list prev_rows
            prev_map cache).modelMap k
          = some ((selected ::
              (item_list.items.getD selected dummyItem).similars).getD k 0))
    ∧ ((synchronize_images_model decode selected item_list prev_rows prev_map
          cache).modelMap.length
      = (synchronize_images_model decode selected item_list prev_rows prev_map
          cache).rows.length) := by
  have hclear : remove_all_rows prev_rows = [] := remove_all_rows_eq_nil prev_rows
  have hmapeq : (synchronize_images_model decode selected item_list prev_rows
      prev_map cache).modelMap
      = ((selected :: (item_list.items.getD selected dummyItem).similars).enumFrom
          0).reverse := by
    simp only [synchronize_images_model, hclear, drain_map]
    rw [build_rows_map_eq decode item_list.items _ 0 [] [] cache (by simp)]
    simp
  refine ⟨?_, ?_, ?_, ?_, ?_⟩
  · simp only [synchronize_images_model, hclear, drain_map, remove_all_rows]
  · simp only [synchronize_images_model, hclear, drain_map]
    rw [build_rows_fst_take_over]
    simp
  · simp only [synchronize_images_model, hclear, drain_map]
    rw [build_rows_fst_length]
    simp
  · intro k hk
    rw [hmapeq]
    have := mapGet_enumFrom_reverse
      (selected :: (item_list.items.getD selected dummyItem).similars) 0 k hk
    simpa using this
  · rw [hmapeq]
    simp only [synchronize_images_model, hclear, drain_map]
    rw [build_rows_fst_length]
    simp

/-! ## Helper lemmas: prefetch loop -/

theorem prefetch_go_trace (items : List FileItem) (similars : List Nat) :
    ∀ (fuel start n : Nat) (cache : CacheState),
      items.length - start = fuel →
      (prefetch_go items similars fuel cache start n).2
        = ((List.range' start fuel).filter
            (prefetch_eligible items similars)).take n := by
  intro fuel
  induction fuel with
  | zero =>
      intro start n cache hf
      simp [prefetch_go, List.range']
  | succ fuel ih =>
      intro start n cache hf
      rw [List.range'_succ]
      cases n with
      | zero =>
          rw [prefetch_go, if_neg (by omega)]
          simp
      | succ m =>
          rw [prefetch_go, if_pos ⟨by omega, by omega⟩]
          by_cases he : prefetch_eligible items similars start
          · rw [if_pos he]
            simp only [List.filter_cons_of_pos he, List.take_succ_cons]
            congr 1
            exact ih (start+1) m _ (by omega)
          · rw [if_neg he]
            rw [List.filter_cons_of_neg (by simpa using he)]
            exact ih (start+1) (m+1) cache (by omega)

theorem prefetch_loop_trace (items : List FileItem) (similars : List Nat)
    (start n : Nat) (cache : CacheState) :
    (prefetch_loop items similars cache start n).2
      = ((List.range' start (items.length - start)).filter
          (prefetch_eligible items similars)).take n :=
  prefetch_go_trace items similars (items.length - start) start n cache rfl

theorem filter_range_above (n s : Nat) (P : Nat → Bool) :
    ((List.range n).filter fun i => decide (s < i) && P i)
      = (List.range' (s+1) (n - (s+1))).filter P := by
  rcases le_or_lt (s+1) n with hle | hlt
  · have hsplit : List.range n
        = List.range' 0 (s+1) ++ List.range' (s+1) (n - (s+1)) := by
      rw [List.range_eq_range']
      rw [show List.range' (s+1) (n - (s+1)) = List.range' (0 + 1*(s+1)) (n - (s+1)) by norm_num]
      rw [List.range'_append]
      congr 1
      omega
    rw [hsplit, List.filter_append]
    have h1 : ((List.range' 0 (s+1)).filter
        fun i => decide (s < i) && P i) = [] := by
      rw [List.filter_eq_nil_iff]
      intro a ha
      rw [List.mem_range'] at ha
      rcases ha with ⟨i, hi, rfl⟩
      simp
      omega
    have h2 : ((List.range' (s+1) (n - (s+1))).filter
        fun i => decide (s < i) && P i)
        = (List.range' (s+1) (n - (s+1))).filter P := by
      apply List.filter_congr
      intro x hx
      rw [List.mem_range'] at hx
      rcases hx with ⟨i, hi, rfl⟩
      simp
      omega
    rw [h1, h2]
    simp
  · have h0 : n - (s+1) = 0 := by omega
    rw [h0]
    simp only [List.range', List.filter_nil]
    rw [List.filter_eq_nil_iff]
    intro a ha
    rw [List.mem_range] at ha
    simp
    omega

/-! ## C3 -/

/-- C3: the view refresh prefetches at most 2 items; the prefetched indices
are exactly the first (at most) two indices, scanning forward in increasing
order, that are strictly greater than the selected index, not in the
selected item's similarity list, and images. -/
theorem c3_prefetch_bounded_forward_scan (decode : FileItem → ImageBuffer) (selected : Nat)
    (item_list : ItemList) (prev_rows : List SortImage)
    (prev_map : List (Nat × Nat)) (cache : CacheState) :
    ((synchronize_images_model decode selected item_list prev_rows prev_map
        cache).prefetched.length ≤ 2)
    ∧ ((synchronize_images_model decode selected item_list prev_rows prev_map
        cache).prefetched
      = ((List.range item_list.items.length).filter fun i =>
          decide (selected < i) && prefetch_eligible item_list.items
            (item_list.items.getD selected dummyItem).similars i).take 2)
    ∧ (∀ i ∈ (synchronize_images_model decode selected item_list prev_rows
        prev_map cache).prefetched,
        selected < i ∧ i < item_list.items.length
        ∧ i ∉ (item_list.items.getD selected dummyItem).similars
        ∧ (item_list.items.getD i dummyItem).is_image = true) := by
  have htrace : (synchronize_images_model decode selected item_list prev_rows
      prev_map cache).prefetched
      = ((List.range' (selected+1)
          (item_list.items.length - (selected+1))).filter
          (prefetch_eligible item_list.items
            (item_list.items.getD selected dummyItem).similars)).take 2 := by
    simp only [synchronize_images_model]
    exact prefetch_loop_trace item_list.items
      (item_list.items.getD selected dummyItem).similars (selected+1) 2 _
  refine ⟨?_, ?_, ?_⟩
  · rw [htrace]
    simp [List.length_take]
  · rw [htrace, filter_range_above]
  · intro i hi
    rw [htrace] at hi
    have h1 := List.mem_of_mem_take hi
    rw [List.mem_filter] at h1
    obtain ⟨hmem, helig⟩ := h1
    rw [List.mem_range'] at hmem
    obtain ⟨t, ht, rfl⟩ := hmem
    unfold prefetch_eligible at helig
    rw [Bool.and_eq_true] at helig
    obtain ⟨hns, himg⟩ := helig
    refine ⟨by omega, by omega, by simpa using hns, himg⟩

theorem c2_view_refresh_rows_and_map_witness :
    mapGet (synchronize_images_model (fun _ => ⟨1, 1⟩) 0
      ⟨[⟨"a", true, 0, "", none, false, [1, 2]⟩,
        ⟨"b", true, 0, "", none, true, []⟩,
        ⟨"c", true, 0, "", none, false, []⟩], [], ""⟩ [] [] ⟨[], [], 0⟩).modelMap 1 = some 1 :=
  ((c2_view_refresh_rows_and_map (fun _ => ⟨1, 1⟩) 0
      ⟨[⟨"a", true, 0, "", none, false, [1, 2]⟩,
        ⟨"b", true, 0, "", none, true, []⟩,
        ⟨"c", true, 0, "", none, false, []⟩], [], ""⟩ [] [] ⟨[], [], 0⟩ (by decide)).2.2.2.1 1 (by decide)).trans
    (by decide)

theorem c3_prefetch_bounded_forward_scan_witness :
    0 < 1
    ∧ 1 < (⟨[⟨"a", true, 0, "", none, false, []⟩,
        ⟨"b", true, 0, "", none, false, []⟩,
        ⟨"c", true, 0, "", none, false, []⟩,
        ⟨"d", true, 0, "", none, false, []⟩], [], ""⟩ : ItemList).items.length
    ∧ 1 ∉ ((⟨[⟨"a", true, 0, "", none, false, []⟩,
        ⟨"b", true, 0, "", none, false, []⟩,
        ⟨"c", true, 0, "", none, false, []⟩,
        ⟨"d", true, 0, "", none, false, []⟩], [], ""⟩ : ItemList).items.getD 0 dummyItem).similars
    ∧ ((⟨[⟨"a", true, 0, "", none, false, []⟩,
        ⟨"b", true, 0, "", none, false, []⟩,
        ⟨"c", true, 0, "", none, false, []⟩,
        ⟨"d", true, 0, "", none, false, []⟩], [], ""⟩ : ItemList).items.getD 1 dummyItem).is_image = true :=
  (c3_prefetch_bounded_forward_scan (fun _ => ⟨1, 1⟩) 0
      ⟨[⟨"a", true, 0, "", none, false, []⟩,
        ⟨"b", true, 0, "", none, false, []⟩,
        ⟨"c", true, 0, "", none, false, []⟩,
        ⟨"d", true, 0, "", none, false, []⟩], [], ""⟩ [] [] ⟨[], [], 0⟩).2.2 1 (by decide)


end ImageSieve
